import Mathlib

/-!
Verification of the school-map NAPLAN merge pipeline.

The definitions below are a shallow embedding of the data-merging core of the
repository: the script that loads the school registry (`schools.json`), the
catchment boundary features (`catchments.geojson`) and the scraped per-school
files, links each scraped file to a boundary feature by centre code or by
name, and writes the merged `naplan_data.json` object
(`src/unnamed/part_003`), together with the scraped-name normalizer of
`src/check_overlap.js`.

Strings are modelled as Lean `String` / `List Char`.  JavaScript's
`String.prototype.replace(/lit/g, rep)` on a literal pattern is modelled by
`replaceAll` (leftmost match, the replacement text is not rescanned).
`String.prototype.toLowerCase` is modelled on the Basic Latin range
(`A`-`Z`), which covers every character the repository's data uses.
JavaScript `Map` and plain-object key assignment are modelled by association
lists with `setKV` (update in place if the key is present, append otherwise),
which preserves JavaScript's insertion-order semantics.
-/

/-- Association-list lookup: first entry with the given key (JS `Map.get` /
object indexing; `setKV` keeps keys unique, so the first entry is the only
one). -/
def getKV {α : Type} (m : List (String × α)) (k : String) : Option α :=
  match m with
  | [] => none
  | (k', v) :: rest => if k' = k then some v else getKV rest k

/-- Association-list update, JS `Map.set` / `obj[k] = v` semantics: if the key
exists its value is replaced in place, otherwise the pair is appended. -/
def setKV {α : Type} (m : List (String × α)) (k : String) (v : α) :
    List (String × α) :=
  match m with
  | [] => [(k, v)]
  | (k', v') :: rest => if k' = k then (k, v) :: rest else (k', v') :: setKV rest k v

/-- Models `toLowerCase` on one character, Basic Latin range. -/
def jsToLower (c : Char) : Char :=
  if c = 'A' then 'a' else if c = 'B' then 'b' else if c = 'C' then 'c'
  else if c = 'D' then 'd' else if c = 'E' then 'e' else if c = 'F' then 'f'
  else if c = 'G' then 'g' else if c = 'H' then 'h' else if c = 'I' then 'i'
  else if c = 'J' then 'j' else if c = 'K' then 'k' else if c = 'L' then 'l'
  else if c = 'M' then 'm' else if c = 'N' then 'n' else if c = 'O' then 'o'
  else if c = 'P' then 'p' else if c = 'Q' then 'q' else if c = 'R' then 'r'
  else if c = 'S' then 's' else if c = 'T' then 't' else if c = 'U' then 'u'
  else if c = 'V' then 'v' else if c = 'W' then 'w' else if c = 'X' then 'x'
  else if c = 'Y' then 'y' else if c = 'Z' then 'z' else c

/-- Models `s.toLowerCase()`. -/
def jsToLowerStr (s : String) : String := String.mk (s.data.map jsToLower)

/-- Characters stripped by `String.prototype.trim`. -/
def isJsSpace (c : Char) : Bool :=
  c = ' ' || c = '\t' || c = '\n' || c = '\r'

/-- Models `s.trim()`. -/
def jsTrim (l : List Char) : List Char :=
  ((l.dropWhile isJsSpace).reverse.dropWhile isJsSpace).reverse

/-- Models `s.split(',')[0]`: the portion of the string before the first comma (the
whole string when no comma occurs). -/
def beforeComma (l : List Char) : List Char :=
  l.takeWhile (fun c => c != ',')

/-- Fuel-driven worker for `replaceAll`.  The fuel is always instantiated
with the length of the subject string, which suffices because each step
consumes at least one character of the subject; the `pat ≠ []` test makes
that explicit (the repository never replaces an empty pattern). -/
def replTick (pat rep : List Char) : Nat → List Char → List Char
  | _, [] => []
  | 0, s => s
  | fuel + 1, c :: rest =>
    if pat ≠ [] ∧ pat.isPrefixOf (c :: rest) then
      rep ++ replTick pat rep fuel (List.drop pat.length (c :: rest))
    else
      c :: replTick pat rep fuel rest

/-- JS `s.replace(/pat/g, rep)` for a literal pattern `pat`: leftmost
occurrences, scanning resumes after the matched text, the replacement text is
not rescanned. -/
def replaceAll (pat rep s : List Char) : List Char :=
  replTick pat rep s.length s

/-- String wrapper for `replaceAll`. -/
def replaceAllStr (pat rep s : String) : String :=
  String.mk (replaceAll pat.data rep.data s.data)

/-- Digit-string value, as `parseInt` computes it on a run of decimal
digits. -/
def digitsToNat (ds : List Char) : Nat :=
  ds.foldl (fun n c => 10 * n + (c.toNat - 48)) 0

/-- Models `parseInt(s, 10)` for the repository's inputs (no leading
whitespace or sign): parses the longest leading run of decimal digits,
`none` for `NaN` when the string does not start with a digit. -/
def jsParseInt (s : String) : Option Nat :=
  let ds := s.data.takeWhile Char.isDigit
  if ds = [] then none else some (digitsToNat ds)

/-- Models `parseInt(stateProvinceId, 10).toString()` — the normalisation of a
registry `StateProvinceId` to a string without leading zeros
(`src/unnamed/part_003` line 33); `"NaN"` when parsing fails, exactly as in
JS. -/
def simpleId (s : String) : String :=
  match jsParseInt s with
  | some n => Nat.repr n
  | none => "NaN"

/-- The literal part of the centre-code regex
`/Centre_code<\/td><td>(\d+)<\/td>/` before the capture group. -/
def centreCodeOpen : List Char := "Centre_code</td><td>".data

/-- The literal part of the centre-code regex after the capture group. -/
def centreCodeClose : List Char := "</td>".data

/-- Attempt the centre-code regex at the start of the string: the fixed
opening text, then a maximal nonempty run of digits, then the closing text.
(The `\d+` group is greedy and the character after it must be `<`, so no
backtracking into the digit run can succeed.) -/
def centreCodeAt (s : List Char) : Option (List Char) :=
  if centreCodeOpen.isPrefixOf s then
    let t := List.drop centreCodeOpen.length s
    let ds := t.takeWhile Char.isDigit
    if ds ≠ [] ∧ centreCodeClose.isPrefixOf (List.drop ds.length t) then
      some ds
    else none
  else none

/-- Models `s.match(/Centre_code<\/td><td>(\d+)<\/td>/)`: first position where the
whole pattern matches, returning the digit group. -/
def findCentreCode : List Char → Option (List Char)
  | [] => none
  | c :: rest =>
    match centreCodeAt (c :: rest) with
    | some ds => some ds
    | none => findCentreCode rest

/-- Code extraction from a boundary feature's description
(`src/unnamed/part_003` lines 46-49): match the centre-code pattern in
`description?.value`, then `parseInt(match[1], 10).toString()`. -/
def extractCodeStr (d : Option String) : Option String :=
  match d with
  | none => none
  | some s => (findCentreCode s.data).map (fun ds => Nat.repr (digitsToNat ds))

/-- A row of `scraper/schools.json` (the registry), with the two fields the
pipeline reads. -/
structure School where
  ACARAId : String
  StateProvinceId : String
deriving DecidableEq

/-- A feature of `catchments.geojson`; `name` models `properties.name` and
`descriptionValue` models the optional chain `properties.description?.value`. -/
structure GeoFeature where
  name : String
  descriptionValue : Option String
deriving DecidableEq

/-- One scraped school file from `scraper/output`; `tableData` models the
optional chain `results?.tableData`. -/
structure ScrapedFile where
  acaraId : String
  schoolName : String
  profileData : String
  tableData : Option String
deriving DecidableEq

/-- The object stored under `finalData[linkedName]`
(`src/unnamed/part_003` lines 102-107). -/
structure Entry where
  acaraId : String
  schoolName : String
  profile : String
  naplan : Option String
deriving DecidableEq

/-- Models `finalData[linkedName] = {acaraId, schoolName, profile: profileData,
naplan: results?.tableData}`. -/
def mkEntry (f : ScrapedFile) : Entry :=
  ⟨f.acaraId, f.schoolName, f.profileData, f.tableData⟩

/-- The `acaraToStateId` map (`src/unnamed/part_003` lines 30-35): ACARA id
to `StateProvinceId` without leading zeros. -/
def acaraToStateId (schools : List School) : List (String × String) :=
  schools.foldl (fun m s => setKV m s.ACARAId (simpleId s.StateProvinceId)) []

/-- One step of building `codeToGeoName`: register the feature under its
extracted centre code when one is present. -/
def codeStep (m : List (String × String)) (f : GeoFeature) :
    List (String × String) :=
  match extractCodeStr f.descriptionValue with
  | some code => setKV m code f.name
  | none => m

/-- The `codeToGeoName` map (`src/unnamed/part_003` lines 38-50): centre code
to feature name. -/
def codeToGeoName (features : List GeoFeature) : List (String × String) :=
  features.foldl codeStep []

/-- Boundary-name normalisation (`src/unnamed/part_003` line 53): expand
`SHS` and `SS`, then lowercase. -/
def normGeo (name : String) : String :=
  jsToLowerStr
    (replaceAllStr "SS" "State School"
      (replaceAllStr "SHS" "State High School" name))

/-- The `normGeoNameMap` (`src/unnamed/part_003` lines 40, 52-55): each
feature is registered under its normalised name and under its lowercased
name, in that order. -/
def normGeoNameMap (features : List GeoFeature) : List (String × String) :=
  features.foldl
    (fun m f => setKV (setKV m (normGeo f.name) f.name) (jsToLowerStr f.name) f.name)
    []

/-- Strategy 1, "Link via Code" (`src/unnamed/part_003` lines 73-78): look up
the profile's ACARA id in `acaraToStateId`; a truthy state id that is a key
of `codeToGeoName` links the profile to that feature name. -/
def strategy1 (acaraMap codeMap : List (String × String)) (acaraId : String) :
    Option String :=
  match getKV acaraMap acaraId with
  | none => none
  | some stateId => if stateId = "" then none else getKV codeMap stateId

/-- The candidate name probed by strategy 2:
`schoolName.split(',')[0].trim().toLowerCase()`. -/
def normScrapedName (schoolName : String) : String :=
  jsToLowerStr (String.mk (jsTrim (beforeComma schoolName.data)))

/-- The fallback probe of strategy 2 (`src/unnamed/part_003` line 93):
abbreviate the long forms in the candidate name. -/
def variantOf (normScraped : String) : String :=
  replaceAllStr "state school" "ss"
    (replaceAllStr "state high school" "shs" normScraped)

/-- The outcome of linking one scraped file: which strategy linked it, and to
which feature name. -/
inductive LinkResult where
  | code (linkedName : String)
  | name (linkedName : String)
  | unlinked
deriving DecidableEq

/-- The feature name a link outcome merges into, if any. -/
def linkTarget : LinkResult → Option String
  | .code n => some n
  | .name n => some n
  | .unlinked => none

/-- The per-file linking logic (`src/unnamed/part_003` lines 71-99):
strategy 1 (code) first; only when it produced no `linkedName`, strategy 2
probes `normGeoNameMap` with the normalised scraped name and then with its
abbreviated variant. -/
def linkProfile (acaraMap codeMap normMap : List (String × String))
    (f : ScrapedFile) : LinkResult :=
  match strategy1 acaraMap codeMap f.acaraId with
  | some n => .code n
  | none =>
    match getKV normMap (normScrapedName f.schoolName) with
    | some n => .name n
    | none =>
      match getKV normMap (variantOf (normScrapedName f.schoolName)) with
      | some n => .name n
      | none => .unlinked

/-- The mutable state of the per-file loop: the `finalData` object and the
three counters of `stats` that the loop updates. -/
structure RunState where
  finalData : List (String × Entry)
  linkedByCode : Nat
  linkedByName : Nat
  unlinked : Nat
deriving DecidableEq

/-- One iteration of `scraperFiles.forEach` (`src/unnamed/part_003` lines
67-112): link the file, bump the matching counter, and on success assign
`finalData[linkedName]`. -/
def stepRun (acaraMap codeMap normMap : List (String × String))
    (st : RunState) (f : ScrapedFile) : RunState :=
  match linkProfile acaraMap codeMap normMap f with
  | .code n =>
    ⟨setKV st.finalData n (mkEntry f), st.linkedByCode + 1, st.linkedByName,
      st.unlinked⟩
  | .name n =>
    ⟨setKV st.finalData n (mkEntry f), st.linkedByCode, st.linkedByName + 1,
      st.unlinked⟩
  | .unlinked =>
    ⟨st.finalData, st.linkedByCode, st.linkedByName, st.unlinked + 1⟩

/-- The output of one run: the `finalData` mapping written to
`naplan_data.json` and the `stats` object. -/
structure NaplanOutput where
  finalData : List (String × Entry)
  total : Nat
  linkedByCode : Nat
  linkedByName : Nat
  unlinked : Nat
deriving DecidableEq

/-- The whole transform of `src/unnamed/part_003` (lines 17-121) on loaded
collections: build the three lookup maps, fold the linking step over the
scraped files in input order, and package `finalData` with the statistics. -/
def processNaplan (schools : List School) (features : List GeoFeature)
    (files : List ScrapedFile) : NaplanOutput :=
  let acaraMap := acaraToStateId schools
  let codeMap := codeToGeoName features
  let normMap := normGeoNameMap features
  let st := files.foldl (stepRun acaraMap codeMap normMap) ⟨[], 0, 0, 0⟩
  ⟨st.finalData, files.length, st.linkedByCode, st.linkedByName, st.unlinked⟩

/-- The scraped-name normalizer of `src/check_overlap.js` (lines 18-23): the
chain of global replacements applied to the scraped name, including the two
identity replacements present in the source. -/
def normalizedScraped (rawName : String) : String :=
  replaceAllStr "Community College" "Community College"
    (replaceAllStr "State Secondary College" "State Secondary College"
      (replaceAllStr "State School" "SS"
        (replaceAllStr "State High School" "SHS" rawName)))

/-! ### Association-list lemmas -/

/-- Looking up the key just set returns the value just set. -/
theorem getKV_setKV_self {α : Type} (m : List (String × α)) (k : String) (v : α) :
    getKV (setKV m k v) k = some v := by
  induction m with
  | nil => simp [setKV, getKV]
  | cons p rest ih =>
    obtain ⟨k', v'⟩ := p
    by_cases h : k' = k
    · simp [setKV, getKV, h]
    · simp [setKV, getKV, h, ih]

/-- Setting one key leaves lookups of other keys unchanged. -/
theorem getKV_setKV_ne {α : Type} (m : List (String × α)) (k k' : String) (v : α)
    (h : k' ≠ k) : getKV (setKV m k v) k' = getKV m k' := by
  have h2 : ¬ k = k' := fun he => h he.symm
  induction m with
  | nil => simp [setKV, getKV, h2]
  | cons p rest ih =>
    obtain ⟨k0, v0⟩ := p
    by_cases h0 : k0 = k
    · subst h0
      simp [setKV, getKV, h2]
    · simp only [setKV, if_neg h0, getKV, ih]

/-! ### Lemmas about the `replace` model -/

/-- The result of `replTick` does not depend on the fuel, as long as the fuel
covers the length of the subject string. -/
theorem replTick_congr (pat rep : List Char) :
    ∀ (f g : Nat) (s : List Char), s.length ≤ f → s.length ≤ g →
      replTick pat rep f s = replTick pat rep g s := by
  intro f
  induction f with
  | zero =>
    intro g s hf _
    have hs : s = [] := List.length_eq_zero.mp (Nat.le_zero.mp hf)
    subst hs
    cases g <;> simp [replTick]
  | succ f ih =>
    intro g s hf hg
    cases s with
    | nil => cases g <;> simp [replTick]
    | cons c rest =>
      cases g with
      | zero => simp at hg
      | succ g' =>
        simp only [List.length_cons, Nat.succ_le_succ_iff] at hf hg
        by_cases h : pat ≠ [] ∧ pat.isPrefixOf (c :: rest)
        · have hlen : 1 ≤ pat.length := by
            cases hp : pat with
            | nil => exact absurd hp h.1
            | cons _ _ => simp
          simp only [replTick, if_pos h]
          congr 1
          apply ih
          · rw [List.length_drop]
            simp only [List.length_cons]
            omega
          · rw [List.length_drop]
            simp only [List.length_cons]
            omega
        · simp only [replTick, if_neg h]
          congr 1
          exact ih g' rest hf hg

/-- Unfolding equation for `replaceAll` on the empty string. -/
theorem replaceAll_nil (pat rep : List Char) : replaceAll pat rep [] = [] := rfl

/-- Unfolding equation for `replaceAll` when the pattern matches at the
current position. -/
theorem replaceAll_cons_pos (pat rep : List Char) (c : Char) (rest : List Char)
    (h : pat ≠ [] ∧ pat.isPrefixOf (c :: rest)) :
    replaceAll pat rep (c :: rest) =
      rep ++ replaceAll pat rep (List.drop pat.length (c :: rest)) := by
  have hlen : 1 ≤ pat.length := by
    cases hp : pat with
    | nil => exact absurd hp h.1
    | cons _ _ => simp
  show replTick pat rep (c :: rest).length (c :: rest) = _
  simp only [List.length_cons, replTick, if_pos h]
  congr 1
  apply replTick_congr
  · rw [List.length_drop]
    simp only [List.length_cons]
    omega
  · exact Nat.le_refl _

/-- Unfolding equation for `replaceAll` when the pattern does not match at
the current position. -/
theorem replaceAll_cons_neg (pat rep : List Char) (c : Char) (rest : List Char)
    (h : ¬(pat ≠ [] ∧ pat.isPrefixOf (c :: rest))) :
    replaceAll pat rep (c :: rest) = c :: replaceAll pat rep rest := by
  show replTick pat rep (c :: rest).length (c :: rest) = _
  simp only [List.length_cons, replTick, if_neg h]
  rfl

/-- A replacement whose pattern starts with a character that does not occur
in the subject string is the identity. -/
theorem replaceAll_eq_self (p : Char) (pt rep : List Char) :
    ∀ s : List Char, p ∉ s → replaceAll (p :: pt) rep s = s := by
  intro s
  induction s with
  | nil => intro _; rfl
  | cons c rest ih =>
    intro h
    have hnp : ¬ (p :: pt).isPrefixOf (c :: rest) = true := by
      intro hp
      obtain ⟨t, ht⟩ := List.isPrefixOf_iff_prefix.mp hp
      rw [List.cons_append] at ht
      have hpc : p = c := (List.cons.injEq _ _ _ _ ▸ ht).1
      exact h (hpc ▸ List.mem_cons_self _ _)
    rw [replaceAll_cons_neg _ _ _ _ (fun hand => hnp hand.2)]
    rw [ih (fun hm => h (List.mem_cons_of_mem _ hm))]

/-! ### Lemmas about the lowercasing model -/

/-- The uppercase Basic Latin letters. -/
def upAZ : List Char :=
  ['A', 'B', 'C', 'D', 'E', 'F', 'G', 'H', 'I', 'J', 'K', 'L', 'M',
   'N', 'O', 'P', 'Q', 'R', 'S', 'T', 'U', 'V', 'W', 'X', 'Y', 'Z']

/-- Lowercasing never produces an uppercase letter, and fixes any character
that is not an uppercase letter. -/
theorem jsToLower_spec (c : Char) :
    jsToLower c ∉ upAZ ∧ (c ∉ upAZ → jsToLower c = c) := by
  by_cases h : c ∈ upAZ
  · constructor
    · fin_cases h <;> decide
    · intro hc
      exact absurd h hc
  · have he : jsToLower c = c := by
      have h' := h
      simp only [upAZ, List.mem_cons, List.mem_singleton, not_or] at h'
      obtain ⟨hA, hB, hC, hD, hE, hF, hG, hH, hI, hJ, hK, hL, hM, hN, hO,
        hP, hQ, hR, hS, hT, hU, hV, hW, hX, hY, hZ⟩ := h'
      simp [jsToLower, hA, hB, hC, hD, hE, hF, hG, hH, hI, hJ, hK, hL, hM,
        hN, hO, hP, hQ, hR, hS, hT, hU, hV, hW, hX, hY, hZ]
    exact ⟨by rw [he]; exact h, fun _ => he⟩

/-- Lowercasing is idempotent on characters. -/
theorem jsToLower_idem (c : Char) : jsToLower (jsToLower c) = jsToLower c :=
  (jsToLower_spec (jsToLower c)).2 (jsToLower_spec c).1

/-- Lowercasing never produces the character `S`. -/
theorem jsToLower_ne_S (c : Char) : jsToLower c ≠ 'S' :=
  fun h => (jsToLower_spec c).1 (h ▸ (by decide : 'S' ∈ upAZ))

/-- The character `S` does not occur in a lowercased string. -/
theorem not_mem_S_map_jsToLower (l : List Char) : 'S' ∉ l.map jsToLower := by
  intro h
  obtain ⟨a, _, ha⟩ := List.mem_map.mp h
  exact jsToLower_ne_S a ha

/-- Lowercasing is idempotent on strings. -/
theorem map_jsToLower_idem (l : List Char) :
    (l.map jsToLower).map jsToLower = l.map jsToLower := by
  induction l with
  | nil => rfl
  | cons c rest ih => simp [jsToLower_idem, ih]

/-- The `SHS` expansion is the identity on lowercased strings. -/
theorem replaceAll_SHS_map (rep : List Char) (l : List Char) :
    replaceAll "SHS".data rep (l.map jsToLower) = l.map jsToLower := by
  have h : "SHS".data = 'S' :: ['H', 'S'] := rfl
  rw [h]
  exact replaceAll_eq_self _ _ _ _ (not_mem_S_map_jsToLower l)

/-- The `SS` expansion is the identity on lowercased strings. -/
theorem replaceAll_SS_map (rep : List Char) (l : List Char) :
    replaceAll "SS".data rep (l.map jsToLower) = l.map jsToLower := by
  have h : "SS".data = 'S' :: ['S'] := rfl
  rw [h]
  exact replaceAll_eq_self _ _ _ _ (not_mem_S_map_jsToLower l)

/-! ### Provenance of the lookup maps -/

/-- Any binding of `acaraToStateId` comes from some registry row with that
ACARA id, carrying its normalised state id. -/
theorem getKV_acaraToStateId (schools : List School) (a sid : String)
    (h : getKV (acaraToStateId schools) a = some sid) :
    ∃ s ∈ schools, s.ACARAId = a ∧ simpleId s.StateProvinceId = sid := by
  have aux : ∀ (ss : List School) (m : List (String × String)),
      getKV (ss.foldl (fun m s => setKV m s.ACARAId (simpleId s.StateProvinceId)) m) a
        = some sid →
      getKV m a = some sid ∨
        ∃ s ∈ ss, s.ACARAId = a ∧ simpleId s.StateProvinceId = sid := by
    intro ss
    induction ss with
    | nil => intro m h; exact Or.inl h
    | cons s rest ih =>
      intro m h
      rcases ih _ h with h' | ⟨t, ht, h1, h2⟩
      · replace h' : getKV (setKV m s.ACARAId (simpleId s.StateProvinceId)) a
            = some sid := h'
        by_cases he : s.ACARAId = a
        · rw [he, getKV_setKV_self] at h'
          exact Or.inr ⟨s, List.mem_cons_self _ _, he, Option.some.inj h'⟩
        · rw [getKV_setKV_ne _ _ _ _ (fun hh => he hh.symm)] at h'
          exact Or.inl h'
      · exact Or.inr ⟨t, List.mem_cons_of_mem _ ht, h1, h2⟩
  rcases aux schools [] h with h' | hex
  · simp [getKV] at h'
  · exact hex

/-- Any binding of `codeToGeoName` comes from some boundary feature with
that extracted centre code, carrying its name. -/
theorem getKV_codeToGeoName (features : List GeoFeature) (c n : String)
    (h : getKV (codeToGeoName features) c = some n) :
    ∃ f ∈ features, f.name = n ∧ extractCodeStr f.descriptionValue = some c := by
  have aux : ∀ (fs : List GeoFeature) (m : List (String × String)),
      getKV (fs.foldl codeStep m) c = some n →
      getKV m c = some n ∨
        ∃ f ∈ fs, f.name = n ∧ extractCodeStr f.descriptionValue = some c := by
    intro fs
    induction fs with
    | nil => intro m h; exact Or.inl h
    | cons f rest ih =>
      intro m h
      rcases ih _ h with h' | ⟨g, hg, h1, h2⟩
      · cases hx : extractCodeStr f.descriptionValue with
        | none =>
          rw [show codeStep m f = m by unfold codeStep; rw [hx]] at h'
          exact Or.inl h'
        | some code =>
          rw [show codeStep m f = setKV m code f.name by unfold codeStep; rw [hx]] at h'
          by_cases he : code = c
          · subst he
            rw [getKV_setKV_self] at h'
            exact Or.inr ⟨f, List.mem_cons_self _ _, Option.some.inj h', hx⟩
          · rw [getKV_setKV_ne _ _ _ _ (fun hh => he hh.symm)] at h'
            exact Or.inl h'
      · exact Or.inr ⟨g, List.mem_cons_of_mem _ hg, h1, h2⟩
  rcases aux features [] h with h' | hex
  · simp [getKV] at h'
  · exact hex

/-! ### Inversion of the linking logic -/

/-- Unfolding of a successful code-path lookup. -/
theorem strategy1_inv (acaraMap codeMap : List (String × String)) (a n : String)
    (h : strategy1 acaraMap codeMap a = some n) :
    ∃ sid, getKV acaraMap a = some sid ∧ sid ≠ "" ∧ getKV codeMap sid = some n := by
  unfold strategy1 at h
  cases hA : getKV acaraMap a with
  | none => rw [hA] at h; cases h
  | some sid =>
    rw [hA] at h
    replace h : (if sid = "" then none else getKV codeMap sid) = some n := h
    by_cases hs : sid = ""
    · rw [if_pos hs] at h; cases h
    · rw [if_neg hs] at h
      exact ⟨sid, rfl, hs, h⟩

/-- When the code path succeeds, the profile is linked by code to the code
path's boundary, regardless of the name maps. -/
theorem linkProfile_code_of_strategy1 (acaraMap codeMap normMap : List (String × String))
    (f : ScrapedFile) (n : String) (h : strategy1 acaraMap codeMap f.acaraId = some n) :
    linkProfile acaraMap codeMap normMap f = .code n := by
  unfold linkProfile
  rw [h]

/-- A by-code link outcome can only come from a successful code path. -/
theorem strategy1_of_linkProfile_code (acaraMap codeMap normMap : List (String × String))
    (f : ScrapedFile) (n : String) (h : linkProfile acaraMap codeMap normMap f = .code n) :
    strategy1 acaraMap codeMap f.acaraId = some n := by
  unfold linkProfile at h
  cases hs : strategy1 acaraMap codeMap f.acaraId with
  | some m =>
    rw [hs] at h
    cases h
    rfl
  | none =>
    rw [hs] at h
    exfalso
    cases h1 : getKV normMap (normScrapedName f.schoolName) with
    | some m => rw [h1] at h; cases h
    | none =>
      rw [h1] at h
      cases h2 : getKV normMap (variantOf (normScrapedName f.schoolName)) with
      | some m => rw [h2] at h; cases h
      | none => rw [h2] at h; cases h

/-- When the code path fails, the name path links the profile via the first
probe of the boundary-name index. -/
theorem linkProfile_name_first (acaraMap codeMap normMap : List (String × String))
    (f : ScrapedFile) (n : String)
    (h0 : strategy1 acaraMap codeMap f.acaraId = none)
    (h1 : getKV normMap (normScrapedName f.schoolName) = some n) :
    linkProfile acaraMap codeMap normMap f = .name n := by
  unfold linkProfile
  rw [h0, h1]

/-- When the code path fails and the first probe misses, the name path links
the profile via the abbreviated-variant probe. -/
theorem linkProfile_name_variant (acaraMap codeMap normMap : List (String × String))
    (f : ScrapedFile) (n : String)
    (h0 : strategy1 acaraMap codeMap f.acaraId = none)
    (h1 : getKV normMap (normScrapedName f.schoolName) = none)
    (h2 : getKV normMap (variantOf (normScrapedName f.schoolName)) = some n) :
    linkProfile acaraMap codeMap normMap f = .name n := by
  unfold linkProfile
  rw [h0, h1, h2]

/-! ### The per-file step and the output mapping -/

/-- Unfolding of the loop step on a by-code link. -/
theorem stepRun_code (acaraMap codeMap normMap : List (String × String))
    (st : RunState) (f : ScrapedFile) (n : String)
    (h : linkProfile acaraMap codeMap normMap f = .code n) :
    stepRun acaraMap codeMap normMap st f =
      ⟨setKV st.finalData n (mkEntry f), st.linkedByCode + 1, st.linkedByName,
        st.unlinked⟩ := by
  unfold stepRun
  rw [h]

/-- Unfolding of the loop step on a by-name link. -/
theorem stepRun_name (acaraMap codeMap normMap : List (String × String))
    (st : RunState) (f : ScrapedFile) (n : String)
    (h : linkProfile acaraMap codeMap normMap f = .name n) :
    stepRun acaraMap codeMap normMap st f =
      ⟨setKV st.finalData n (mkEntry f), st.linkedByCode, st.linkedByName + 1,
        st.unlinked⟩ := by
  unfold stepRun
  rw [h]

/-- Unfolding of the loop step on an unlinked profile. -/
theorem stepRun_unlinked (acaraMap codeMap normMap : List (String × String))
    (st : RunState) (f : ScrapedFile)
    (h : linkProfile acaraMap codeMap normMap f = .unlinked) :
    stepRun acaraMap codeMap normMap st f =
      ⟨st.finalData, st.linkedByCode, st.linkedByName, st.unlinked + 1⟩ := by
  unfold stepRun
  rw [h]

/-- Every key of the accumulated output mapping is either inherited from the
initial state or claimed by one of the processed files. -/
theorem keys_from_linked (acaraMap codeMap normMap : List (String × String))
    (k : String) :
    ∀ (files : List ScrapedFile) (st : RunState),
      (getKV (files.foldl (stepRun acaraMap codeMap normMap) st).finalData k).isSome →
      (getKV st.finalData k).isSome ∨
        ∃ p ∈ files, linkTarget (linkProfile acaraMap codeMap normMap p) = some k := by
  intro files
  induction files with
  | nil => intro st h; exact Or.inl h
  | cons p rest ih =>
    intro st h
    rcases ih _ h with h' | ⟨q, hq, hl⟩
    · cases hlp : linkProfile acaraMap codeMap normMap p with
      | code n =>
        rw [stepRun_code _ _ _ _ _ _ hlp] at h'
        by_cases hk : k = n
        · subst hk
          exact Or.inr ⟨p, List.mem_cons_self _ _, by rw [hlp]; rfl⟩
        · rw [getKV_setKV_ne _ _ _ _ hk] at h'
          exact Or.inl h'
      | name n =>
        rw [stepRun_name _ _ _ _ _ _ hlp] at h'
        by_cases hk : k = n
        · subst hk
          exact Or.inr ⟨p, List.mem_cons_self _ _, by rw [hlp]; rfl⟩
        · rw [getKV_setKV_ne _ _ _ _ hk] at h'
          exact Or.inl h'
      | unlinked =>
        rw [stepRun_unlinked _ _ _ _ _ hlp] at h'
        exact Or.inl h'
    · exact Or.inr ⟨q, List.mem_cons_of_mem _ hq, hl⟩

/-! ### Concrete inputs used by witnesses and counterexamples -/

/-- The boundary feature of the spec's concrete scenario. -/
def northLakesBoundary : GeoFeature :=
  ⟨"North Lakes SHS", some "<td>Centre_code</td><td>2324</td>"⟩

/-- The registry row of the spec's concrete scenario. -/
def northLakesSchool : School := ⟨"47574", "000002324"⟩

/-- The scraped profile of the spec's concrete code-match scenario. -/
def northLakesProfile : ScrapedFile :=
  ⟨"47574", "North Lakes State College, Australia", "profile", none⟩

/-- The second scraped profile of the spec's name-match scenario: no registry
entry, name equal to the boundary's display name. -/
def secondProfile : ScrapedFile := ⟨"99999", "North Lakes SHS", "profile2", none⟩

/-- A boundary reachable via centre code 1. -/
def alphaBoundary : GeoFeature := ⟨"Alpha SHS", some "<td>Centre_code</td><td>1</td>"⟩

/-- A boundary with no centre code, reachable only by name. -/
def betaBoundary : GeoFeature := ⟨"Beta SHS", none⟩

/-- A registry row mapping ACARA id `X` to centre code 1. -/
def conflictSchool : School := ⟨"X", "1"⟩

/-- A profile whose code path resolves to `Alpha SHS` while its name equals
`Beta SHS`. -/
def conflictProfile : ScrapedFile := ⟨"X", "Beta SHS", "p", none⟩

/-- A code-less boundary named `Alpha SHS`. -/
def plainAlphaBoundary : GeoFeature := ⟨"Alpha SHS", none⟩

/-- First of two profiles claiming the same boundary name. -/
def dupProfile1 : ScrapedFile := ⟨"A1", "Alpha SHS", "p1", none⟩

/-- Second of two profiles claiming the same boundary name. -/
def dupProfile2 : ScrapedFile := ⟨"A2", "Alpha SHS", "p2", none⟩

/-- First of two boundaries embedding the same centre code 5. -/
def codeOneBoundary : GeoFeature := ⟨"One", some "<td>Centre_code</td><td>5</td>"⟩

/-- Second of two boundaries embedding the same centre code 5. -/
def codeTwoBoundary : GeoFeature := ⟨"Two", some "<td>Centre_code</td><td>5</td>"⟩

/-- A boundary no profile matches. -/
def lonelyBoundary : GeoFeature := ⟨"Lonely", none⟩

/-- Appending one more linked file to a run updates the output mapping at the
linked key with that file's entry (overwriting any earlier entry). -/
theorem foldl_last_claim (acaraMap codeMap normMap : List (String × String))
    (files : List ScrapedFile) (p : ScrapedFile) (k : String) (st : RunState)
    (h : linkTarget (linkProfile acaraMap codeMap normMap p) = some k) :
    getKV (((files ++ [p]).foldl (stepRun acaraMap codeMap normMap) st).finalData) k
      = some (mkEntry p) := by
  rw [List.foldl_append]
  show getKV ((stepRun acaraMap codeMap normMap
      (files.foldl (stepRun acaraMap codeMap normMap) st) p).finalData) k
    = some (mkEntry p)
  cases hlp : linkProfile acaraMap codeMap normMap p with
  | unlinked =>
    rw [hlp] at h
    simp [linkTarget] at h
  | code n =>
    rw [hlp] at h
    simp only [linkTarget, Option.some.injEq] at h
    subst h
    rw [stepRun_code _ _ _ _ _ _ hlp]
    exact getKV_setKV_self _ _ _
  | name n =>
    rw [hlp] at h
    simp only [linkTarget, Option.some.injEq] at h
    subst h
    rw [stepRun_name _ _ _ _ _ _ hlp]
    exact getKV_setKV_self _ _ _

/-! ### Claims -/

/-- Claim C1, counterexample.  The claim says that the name path is attempted
even when the code path succeeded, and that when the two paths resolve to
different boundaries the profile is classified as a conflict and neither
boundary is merged.  On this input the code path resolves `conflictProfile`
to `Alpha SHS` while the name probe of the boundary-name index resolves its
scraped name to `Beta SHS`; the pipeline nevertheless links the profile by
code and merges it into `Alpha SHS` automatically, producing no conflict
outcome. -/
theorem c1_conflict_counterexample :
    getKV (normGeoNameMap [alphaBoundary, betaBoundary])
        (normScrapedName conflictProfile.schoolName) = some "Beta SHS" ∧
    linkProfile (acaraToStateId [conflictSchool])
        (codeToGeoName [alphaBoundary, betaBoundary])
        (normGeoNameMap [alphaBoundary, betaBoundary]) conflictProfile
      = .code "Alpha SHS" ∧
    getKV (processNaplan [conflictSchool] [alphaBoundary, betaBoundary]
        [conflictProfile]).finalData "Alpha SHS" = some (mkEntry conflictProfile) ∧
    (processNaplan [conflictSchool] [alphaBoundary, betaBoundary]
        [conflictProfile]).linkedByCode = 1 := by
  decide

/-- Claim C1, amended.  The name path is attempted only when the code path
produced no linked name: whenever the code path succeeds, the profile is
linked by code to the code path's boundary, whatever the boundary-name index
would say, and that boundary is merged. -/
theorem c1_code_path_short_circuits (acaraMap codeMap normMap : List (String × String))
    (f : ScrapedFile) (n : String)
    (h : strategy1 acaraMap codeMap f.acaraId = some n) :
    linkProfile acaraMap codeMap normMap f = .code n :=
  linkProfile_code_of_strategy1 _ _ _ _ _ h

/-- Witness for the amended claim C1 at the conflicting concrete input. -/
theorem c1_code_path_short_circuits_witness :
    strategy1 (acaraToStateId [conflictSchool])
        (codeToGeoName [alphaBoundary, betaBoundary]) conflictProfile.acaraId
      = some "Alpha SHS" ∧
    linkProfile (acaraToStateId [conflictSchool])
        (codeToGeoName [alphaBoundary, betaBoundary])
        (normGeoNameMap [alphaBoundary, betaBoundary]) conflictProfile
      = .code "Alpha SHS" :=
  ⟨by decide, c1_code_path_short_circuits _ _ _ _ _ (by decide)⟩

/-- Claim C2.  Whenever a profile is linked by code, some registry row joins
the profile's ACARA id to a canonicalised state code that equals the centre
code extracted from the description blob of a boundary feature carrying the
linked name. -/
theorem c2_codeMatch_agrees (schools : List School) (features : List GeoFeature)
    (f : ScrapedFile) (bname : String)
    (h : linkProfile (acaraToStateId schools) (codeToGeoName features)
        (normGeoNameMap features) f = .code bname) :
    ∃ s ∈ schools, ∃ g ∈ features, s.ACARAId = f.acaraId ∧ g.name = bname ∧
      extractCodeStr g.descriptionValue = some (simpleId s.StateProvinceId) := by
  have h1 := strategy1_of_linkProfile_code _ _ _ _ _ h
  obtain ⟨sid, hA, hne, hC⟩ := strategy1_inv _ _ _ _ h1
  obtain ⟨s, hs, hsa, hsid⟩ := getKV_acaraToStateId _ _ _ hA
  obtain ⟨g, hg, hgn, hgc⟩ := getKV_codeToGeoName _ _ _ hC
  exact ⟨s, hs, g, hg, hsa, hgn, by rw [hsid]; exact hgc⟩

/-- Witness for claim C2: the spec's North Lakes scenario is linked by code
and merged, and the code agreement holds there. -/
theorem c2_codeMatch_agrees_witness :
    linkProfile (acaraToStateId [northLakesSchool]) (codeToGeoName [northLakesBoundary])
        (normGeoNameMap [northLakesBoundary]) northLakesProfile
      = .code "North Lakes SHS" ∧
    getKV (processNaplan [northLakesSchool] [northLakesBoundary]
        [northLakesProfile]).finalData "North Lakes SHS"
      = some (mkEntry northLakesProfile) ∧
    (∃ s ∈ [northLakesSchool], ∃ g ∈ [northLakesBoundary],
      s.ACARAId = northLakesProfile.acaraId ∧ g.name = "North Lakes SHS" ∧
      extractCodeStr g.descriptionValue = some (simpleId s.StateProvinceId)) :=
  ⟨by decide, by decide, c2_codeMatch_agrees _ _ _ _ (by decide)⟩

/-- Claim C3, counterexample.  The scraped-name normalizer of
`src/check_overlap.js` is not idempotent: one application maps this input to
`SState School`, whose second application collapses to `SSS`. -/
theorem c3_scraped_normalizer_not_idempotent :
    normalizedScraped "State Schooltate School" = "SState School" ∧
    normalizedScraped (normalizedScraped "State Schooltate School") = "SSS" ∧
    normalizedScraped (normalizedScraped "State Schooltate School") ≠
      normalizedScraped "State Schooltate School" := by
  decide

/-- Claim C3, amended.  The boundary-side normalizer of
`src/unnamed/part_003` (expand `SHS` and `SS`, then lowercase) is idempotent
on every input string; the scraped-side normalizer of `src/check_overlap.js`
is not. -/
theorem c3_normGeo_idempotent (s : String) : normGeo (normGeo s) = normGeo s := by
  show String.mk (List.map jsToLower (replaceAll "SS".data "State School".data
      (replaceAll "SHS".data "State High School".data
        (List.map jsToLower (replaceAll "SS".data "State School".data
          (replaceAll "SHS".data "State High School".data s.data))))))
    = String.mk (List.map jsToLower (replaceAll "SS".data "State School".data
      (replaceAll "SHS".data "State High School".data s.data)))
  rw [replaceAll_SHS_map, replaceAll_SS_map, map_jsToLower_idem]

/-- Claim C4, counterexample.  Two distinct profiles name-match the same
boundary; the second claim is not rejected or counted — it overwrites the
first profile's entry in the output mapping, and both are counted as linked
by name. -/
theorem c4_duplicate_claim_overwrites :
    linkProfile (acaraToStateId []) (codeToGeoName [plainAlphaBoundary])
        (normGeoNameMap [plainAlphaBoundary]) dupProfile1 = .name "Alpha SHS" ∧
    linkProfile (acaraToStateId []) (codeToGeoName [plainAlphaBoundary])
        (normGeoNameMap [plainAlphaBoundary]) dupProfile2 = .name "Alpha SHS" ∧
    getKV (processNaplan [] [plainAlphaBoundary]
        [dupProfile1, dupProfile2]).finalData "Alpha SHS"
      = some (mkEntry dupProfile2) ∧
    (processNaplan [] [plainAlphaBoundary] [dupProfile1, dupProfile2]).linkedByName = 2 := by
  decide

/-- Claim C4, amended.  The output mapping keeps the last profile that
claimed each boundary key: a run whose final file links to key `k` ends with
that file's entry stored under `k`, overwriting any earlier claim, with no
rejection or duplicate count. -/
theorem c4_last_claim_wins (schools : List School) (features : List GeoFeature)
    (files : List ScrapedFile) (p : ScrapedFile) (k : String)
    (h : linkTarget (linkProfile (acaraToStateId schools) (codeToGeoName features)
        (normGeoNameMap features) p) = some k) :
    getKV (processNaplan schools features (files ++ [p])).finalData k
      = some (mkEntry p) :=
  foldl_last_claim _ _ _ files p k _ h

/-- Witness for the amended claim C4 at the duplicate-claim concrete input. -/
theorem c4_last_claim_wins_witness :
    linkTarget (linkProfile (acaraToStateId []) (codeToGeoName [plainAlphaBoundary])
        (normGeoNameMap [plainAlphaBoundary]) dupProfile2) = some "Alpha SHS" ∧
    getKV (processNaplan [] [plainAlphaBoundary]
        ([dupProfile1] ++ [dupProfile2])).finalData "Alpha SHS"
      = some (mkEntry dupProfile2) :=
  ⟨by decide, c4_last_claim_wins _ _ _ _ _ (by decide)⟩

/-- Claim C5, counterexample.  Two boundary features extract the same centre
code 5; the code index keeps the later one (`Map.set` overwrites), not the
first, and nothing is flagged. -/
theorem c5_duplicate_code_counterexample :
    extractCodeStr codeOneBoundary.descriptionValue = some "5" ∧
    extractCodeStr codeTwoBoundary.descriptionValue = some "5" ∧
    getKV (codeToGeoName [codeOneBoundary, codeTwoBoundary]) "5" = some "Two" ∧
    getKV (codeToGeoName [codeOneBoundary, codeTwoBoundary]) "5" ≠ some "One" := by
  decide

/-- Claim C5, amended.  When several boundaries extract to the same code the
code index keeps the last one in input order: a feature list ending in a
feature with code `c` indexes `c` to that final feature's name. -/
theorem c5_last_code_wins (fs : List GeoFeature) (f : GeoFeature) (c : String)
    (h : extractCodeStr f.descriptionValue = some c) :
    getKV (codeToGeoName (fs ++ [f])) c = some f.name := by
  unfold codeToGeoName
  rw [List.foldl_append]
  show getKV (codeStep (fs.foldl codeStep []) f) c = some f.name
  unfold codeStep
  rw [h]
  exact getKV_setKV_self _ _ _

/-- Witness for the amended claim C5 at the duplicate-code concrete input. -/
theorem c5_last_code_wins_witness :
    extractCodeStr codeTwoBoundary.descriptionValue = some "5" ∧
    getKV (codeToGeoName ([codeOneBoundary] ++ [codeTwoBoundary])) "5" = some "Two" :=
  ⟨by decide, c5_last_code_wins [codeOneBoundary] codeTwoBoundary "5" (by decide)⟩

/-- Claim C6, counterexample.  A boundary feature that no profile matches is
absent from the output mapping: with one boundary and no scraped files the
output mapping is empty and carries no key for the boundary, rather than an
unmatched placeholder entry. -/
theorem c6_unmatched_boundary_absent :
    (processNaplan [] [lonelyBoundary] []).finalData = [] ∧
    getKV (processNaplan [] [lonelyBoundary] []).finalData "Lonely" = none := by
  decide

/-- Claim C6, amended.  Every key of the output mapping was claimed by some
scraped file that linked to it; boundary features no profile links to do not
appear in the output at all. -/
theorem c6_keys_only_from_profiles (schools : List School)
    (features : List GeoFeature) (files : List ScrapedFile) (k : String)
    (h : (getKV (processNaplan schools features files).finalData k).isSome = true) :
    ∃ p ∈ files, linkTarget (linkProfile (acaraToStateId schools)
        (codeToGeoName features) (normGeoNameMap features) p) = some k := by
  have h' : (getKV ((files.foldl (stepRun (acaraToStateId schools)
      (codeToGeoName features) (normGeoNameMap features))
        ⟨[], 0, 0, 0⟩).finalData) k).isSome = true := h
  rcases keys_from_linked (acaraToStateId schools) (codeToGeoName features)
      (normGeoNameMap features) k files ⟨[], 0, 0, 0⟩ h' with h0 | hex
  · simp [getKV] at h0
  · exact hex

/-- Witness for the amended claim C6 at the North Lakes concrete input. -/
theorem c6_keys_only_from_profiles_witness :
    (getKV (processNaplan [northLakesSchool] [northLakesBoundary]
        [northLakesProfile]).finalData "North Lakes SHS").isSome = true ∧
    ∃ p ∈ [northLakesProfile], linkTarget (linkProfile (acaraToStateId [northLakesSchool])
        (codeToGeoName [northLakesBoundary]) (normGeoNameMap [northLakesBoundary]) p)
      = some "North Lakes SHS" :=
  ⟨by decide, c6_keys_only_from_profiles _ _ _ _ (by decide)⟩

/-- Claim C7.  The transform is a pure function of its three input
collections: two runs on equal inputs produce equal output mappings and
equal statistics. -/
theorem c7_deterministic (s1 s2 : List School) (f1 f2 : List GeoFeature)
    (p1 p2 : List ScrapedFile) (hs : s1 = s2) (hf : f1 = f2) (hp : p1 = p2) :
    processNaplan s1 f1 p1 = processNaplan s2 f2 p2 := by
  subst hs
  subst hf
  subst hp
  rfl

/-- Witness for claim C7 on a concrete run. -/
theorem c7_deterministic_witness :
    processNaplan [northLakesSchool] [northLakesBoundary]
        [northLakesProfile, secondProfile]
      = processNaplan [northLakesSchool] [northLakesBoundary]
        [northLakesProfile, secondProfile] :=
  c7_deterministic _ _ _ _ _ _ rfl rfl rfl

/-- Claim C8.  When the code path fails, the name path takes the portion of
the scraped name before the first comma (trimmed and lowercased, per
`normScrapedName`) and links the profile by name when either that candidate
or its abbreviated variant hits the boundary-name index, which holds each
boundary's lowercased display name and its expanded normalised form. -/
theorem c8_name_path_probes (acaraMap codeMap normMap : List (String × String))
    (f : ScrapedFile) (n : String)
    (h0 : strategy1 acaraMap codeMap f.acaraId = none)
    (h1 : getKV normMap (normScrapedName f.schoolName) = some n ∨
      (getKV normMap (normScrapedName f.schoolName) = none ∧
        getKV normMap (variantOf (normScrapedName f.schoolName)) = some n)) :
    linkProfile acaraMap codeMap normMap f = .name n := by
  rcases h1 with h1 | ⟨h1, h2⟩
  · exact linkProfile_name_first _ _ _ _ _ h0 h1
  · exact linkProfile_name_variant _ _ _ _ _ h0 h1 h2

/-- Witness for claim C8: the spec's second scenario, a profile with no
registry entry whose name equals the boundary's display name, is linked by
name via the exact (case-normalised) display-name key. -/
theorem c8_name_path_probes_witness :
    strategy1 (acaraToStateId [northLakesSchool]) (codeToGeoName [northLakesBoundary])
        secondProfile.acaraId = none ∧
    normScrapedName secondProfile.schoolName = "north lakes shs" ∧
    getKV (normGeoNameMap [northLakesBoundary]) "north lakes shs"
      = some "North Lakes SHS" ∧
    linkProfile (acaraToStateId [northLakesSchool]) (codeToGeoName [northLakesBoundary])
        (normGeoNameMap [northLakesBoundary]) secondProfile
      = .name "North Lakes SHS" :=
  ⟨by decide, by decide, by decide,
    c8_name_path_probes _ _ _ _ _ (by decide) (Or.inl (by decide))⟩

/-- Claim C9.  A profile linked by code is linked to the same boundary key
whatever its scraped display name is: replacing the name field leaves the
by-code link outcome unchanged. -/
theorem c9_code_link_ignores_name (acaraMap codeMap normMap : List (String × String))
    (f : ScrapedFile) (bname newName : String)
    (h : linkProfile acaraMap codeMap normMap f = .code bname) :
    linkProfile acaraMap codeMap normMap
      ⟨f.acaraId, newName, f.profileData, f.tableData⟩ = .code bname := by
  have h1 := strategy1_of_linkProfile_code _ _ _ _ _ h
  exact linkProfile_code_of_strategy1 _ _ _ _ _ h1

/-- Witness for claim C9: renaming the North Lakes profile does not change
the boundary key it is linked to. -/
theorem c9_code_link_ignores_name_witness :
    linkProfile (acaraToStateId [northLakesSchool]) (codeToGeoName [northLakesBoundary])
        (normGeoNameMap [northLakesBoundary]) northLakesProfile
      = .code "North Lakes SHS" ∧
    linkProfile (acaraToStateId [northLakesSchool]) (codeToGeoName [northLakesBoundary])
        (normGeoNameMap [northLakesBoundary])
        ⟨northLakesProfile.acaraId, "Completely Different, QLD",
          northLakesProfile.profileData, northLakesProfile.tableData⟩
      = .code "North Lakes SHS" :=
  ⟨by decide, c9_code_link_ignores_name _ _ _ _ _ _ (by decide)⟩

/-- Claim C10.  The boundary-side expansion replaces `SHS` and `SS` globally,
case-sensitively and without word boundaries, before lowercasing: the
in-word `SS` of `MOSSMAN SS` is also expanded, yielding
`mostate schoolman state school` rather than `mossman state school`. -/
theorem c10_expansion_in_word :
    normGeo "MOSSMAN SS" = "mostate schoolman state school" ∧
    normGeo "MOSSMAN SS" ≠ "mossman state school" := by
  decide
